import Mathlib

/-!
Verification of the pglike_todo server (src/main.go): a shallow embedding of
the `todos` table, the four store operations (`createTodo`, `toggleTodo`,
`deleteTodo`, the `SELECT ... ORDER BY id` list query), the form-id parsing
done with `strconv.ParseInt(s, 10, 64)`, and the four HTTP handlers
(`handleIndex`, `handleCreate`, `handleToggle`, `handleDelete`).

The SQL engine (`github.com/drummonds/go-postgres`, driver name `pglike`) is
an external dependency; its statements are embedded with standard SQL
semantics: the table is a list of rows, `SERIAL PRIMARY KEY` is a strictly
increasing counter, `INSERT` appends, `UPDATE ... WHERE id = $1` maps over
matching rows, `DELETE ... WHERE id = $1` filters, `ORDER BY id` sorts.
Storage errors are injected explicitly where a claim concerns them
(`handleIndex` takes the query outcome as an `Except`); the mutating
handlers are modelled on the success path of the store.
-/

namespace PglikeTodo

/-- A row of the `todos` table: `id SERIAL PRIMARY KEY`, `title VARCHAR(500)`,
`completed BOOLEAN DEFAULT FALSE`.  `created_at` plays no part in any
operation after insert and is omitted. -/
structure Todo where
  id : Int
  title : String
  completed : Bool
  deriving DecidableEq, Repr

/-- The state of the store: the rows of the `todos` table in insertion order,
plus the next value of the `SERIAL` id sequence. -/
structure StoreState where
  rows : List Todo
  nextId : Int
  deriving DecidableEq, Repr

/-- The state right after `initDB`: empty table, `SERIAL` sequence at 1. -/
def initState : StoreState := ⟨[], 1⟩

/-- `createTodo` (src/main.go:90-93):
`INSERT INTO todos (title) VALUES ($1)` — appends a row with the next serial
id, the given title, and `completed` at its default `FALSE`. -/
def createTodo (title : String) (s : StoreState) : StoreState :=
  { rows := s.rows ++ [⟨s.nextId, title, false⟩], nextId := s.nextId + 1 }

/-- `toggleTodo` (src/main.go:95-98):
`UPDATE todos SET completed = NOT completed WHERE id = $1`. -/
def toggleTodo (i : Int) (s : StoreState) : StoreState :=
  { s with rows := s.rows.map fun t =>
      if t.id = i then { t with completed := !t.completed } else t }

/-- `deleteTodo` (src/main.go:100-103): `DELETE FROM todos WHERE id = $1`. -/
def deleteTodo (i : Int) (s : StoreState) : StoreState :=
  { s with rows := s.rows.filter fun t => decide (t.id ≠ i) }

/-- The order used by `ORDER BY id`: ascending id. -/
def todoLE (a b : Todo) : Prop := a.id ≤ b.id

instance : DecidableRel todoLE := fun a b => inferInstanceAs (Decidable (a.id ≤ b.id))

instance : IsTotal Todo todoLE := ⟨fun a b => Int.le_total a.id b.id⟩

instance : IsTrans Todo todoLE := ⟨fun _ _ _ h₁ h₂ => le_trans h₁ h₂⟩

/-- The result set of `SELECT id, title, completed FROM todos ORDER BY id`
(src/main.go:39): all rows, sorted by ascending id. -/
def listQuery (s : StoreState) : List Todo :=
  List.insertionSort todoLE s.rows

/-- Output units produced through the lofigui buffer while rendering the index
page: `lofigui.Printf`, `lofigui.Markdown`, `lofigui.HTML`. -/
inductive Fragment where
  | printf (s : String)
  | markdown (s : String)
  | html (s : String)
  deriving DecidableEq, Repr

/-- `html.EscapeString` applied to one character: Go escapes `&`, the
apostrophe (as `&#39;`), `<`, `>` and the double quote (as `&#34;`). -/
def escapeChar (c : Char) : String :=
  if c = '&' then "&amp;"
  else if c = '\x27' then "&#39;"
  else if c = '<' then "&lt;"
  else if c = '>' then "&gt;"
  else if c = '\x22' then "&#34;"
  else String.singleton c

/-- `html.EscapeString` over a whole string. -/
def escapeString (s : String) : String :=
  String.join (s.data.map escapeChar)

/-- The per-row HTML fragment built by `listTodos` (src/main.go:76-86): the
`%d` verbs take the row id, `%s` takes `checked`/`class`, the title is
HTML-escaped. -/
def todoRowHTML (t : Todo) : String :=
  let checked := if t.completed then "checked" else ""
  let cls := if t.completed then "completed" else ""
  "<div class=\"box\" style=\"display:flex; align-items:center; gap:0.75rem; padding:0.75rem;\">\n" ++
  "  <form action=\"/toggle\" method=\"post\" style=\"margin:0;\">\n" ++
  "    <input type=\"hidden\" name=\"id\" value=\"" ++ toString t.id ++ "\">\n" ++
  "    <input type=\"checkbox\" " ++ checked ++ " onchange=\"this.form.submit()\" style=\"width:1.2em;height:1.2em;\">\n" ++
  "  </form>\n" ++
  "  <span class=\"" ++ cls ++ "\" style=\"flex:1;\">" ++ escapeString t.title ++ "</span>\n" ++
  "  <form action=\"/delete\" method=\"post\" style=\"margin:0;\">\n" ++
  "    <input type=\"hidden\" name=\"id\" value=\"" ++ toString t.id ++ "\">\n" ++
  "    <button class=\"button is-small is-danger is-outlined\" type=\"submit\">Delete</button>\n" ++
  "  </form>\n" ++
  "</div>"

/-- The create-form fragment appended by `handleIndex` (src/main.go:114-118). -/
def createFormHTML : String :=
  "<hr>\n" ++
  "<form action=\"/create\" method=\"post\" style=\"display:flex; gap:0.5rem;\">\n" ++
  "  <input class=\"input\" type=\"text\" name=\"title\" placeholder=\"What needs to be done?\" required>\n" ++
  "  <button class=\"button is-primary\" type=\"submit\">Add</button>\n" ++
  "</form>"

/-- `listTodos` (src/main.go:38-88) as a function of the outcome of the
`SELECT` query: on a query error it prints `Error listing todos: <err>` and
returns; on an empty result it emits the `*No todos yet. Add one below!*`
markdown; otherwise it emits one HTML fragment per row. -/
def listTodos (q : Except String (List Todo)) : List Fragment :=
  match q with
  | .error e => [.printf ("Error listing todos: " ++ e)]
  | .ok todos =>
    if todos.length = 0 then [.markdown "*No todos yet. Add one below!*"]
    else todos.map fun t => .html (todoRowHTML t)

/-- Response of the index handler: `http.NotFound` for a path other than `/`,
otherwise a rendered page with status 200. -/
inductive IndexResponse where
  | notFound
  | page (status : Nat) (content : List Fragment)
  deriving DecidableEq, Repr

/-- `handleIndex` (src/main.go:105-124) as a function of the request path and
the outcome of the list query: 404 off `/`; otherwise the buffer is reset,
`listTodos` renders into it, the create form is appended, and the page is
written with status 200. -/
def handleIndex (path : String) (q : Except String (List Todo)) : IndexResponse :=
  if path ≠ "/" then .notFound
  else .page 200 (listTodos q ++ [.html createFormHTML])

/-- An HTTP request as the handlers see it: the method, and the `title` and
`id` form values (`FormValue` yields `""` for a missing field). -/
structure Request where
  method : String
  title : String
  idField : String
  deriving DecidableEq, Repr

/-- A mutating handler's response: `http.Redirect` or `http.Error`. -/
inductive Response where
  | redirect (status : Nat) (location : String)
  | err (status : Nat) (body : String)
  deriving DecidableEq, Repr

/-- One step of `parseDigits`: accumulate base-10 digits; any non-digit
character is an error (Go's base-10 `ParseInt` accepts only `0`-`9`). -/
def parseDigitsAux : Nat → List Char → Option Nat
  | acc, [] => some acc
  | acc, c :: cs =>
    if c.isDigit then parseDigitsAux (acc * 10 + (c.toNat - 48)) cs
    else none

/-- The unsigned-digits-and-range part of `strconv.ParseInt(s, 10, 64)`:
parse the digit run, apply the sign, and reject values outside
`[-2^63, 2^63)`. -/
def parseInt64Core (neg : Bool) (ds : List Char) : Option Int :=
  match parseDigitsAux 0 ds with
  | none => none
  | some n =>
    let v : Int := if neg then -(n : Int) else (n : Int)
    if -(2 ^ 63) ≤ v ∧ v < 2 ^ 63 then some v else none

/-- `strconv.ParseInt(s, 10, 64)` as used by the toggle/delete handlers:
optional single `+`/`-` sign, at least one base-10 digit, 64-bit signed
range check.  `none` is Go's non-nil error. -/
def parseInt64 (s : String) : Option Int :=
  match s.data with
  | [] => none
  | c :: cs =>
    if c = '-' then (if cs.isEmpty then none else parseInt64Core true cs)
    else if c = '+' then (if cs.isEmpty then none else parseInt64Core false cs)
    else parseInt64Core false (c :: cs)

/-- `handleCreate` (src/main.go:126-140): non-POST redirects 303 to `/`;
an empty (or absent) `title` skips the insert; otherwise `createTodo` runs
and the handler redirects 303 to `/`. -/
def handleCreate (r : Request) (s : StoreState) : Response × StoreState :=
  if r.method ≠ "POST" then (.redirect 303 "/", s)
  else if r.title ≠ "" then (.redirect 303 "/", createTodo r.title s)
  else (.redirect 303 "/", s)

/-- `handleToggle` (src/main.go:142-158): non-POST redirects 303 to `/`;
an unparsable `id` yields 400 `invalid id`; otherwise `toggleTodo` runs and
the handler redirects 303 to `/`. -/
def handleToggle (r : Request) (s : StoreState) : Response × StoreState :=
  if r.method ≠ "POST" then (.redirect 303 "/", s)
  else
    match parseInt64 r.idField with
    | none => (.err 400 "invalid id", s)
    | some v => (.redirect 303 "/", toggleTodo v s)

/-- `handleDelete` (src/main.go:160-176): same shape as `handleToggle` but
calling `deleteTodo`. -/
def handleDelete (r : Request) (s : StoreState) : Response × StoreState :=
  if r.method ≠ "POST" then (.redirect 303 "/", s)
  else
    match parseInt64 r.idField with
    | none => (.err 400 "invalid id", s)
    | some v => (.redirect 303 "/", deleteTodo v s)

/-- The character for a single decimal digit value. -/
def digitChar : Nat → Char
  | 0 => '0'
  | 1 => '1'
  | 2 => '2'
  | 3 => '3'
  | 4 => '4'
  | 5 => '5'
  | 6 => '6'
  | 7 => '7'
  | 8 => '8'
  | _ => '9'

/-- The base-10 digit run of a natural number, most significant digit
first. -/
def natToDigits (n : Nat) : List Char :=
  if h : n < 10 then [digitChar n]
  else natToDigits (n / 10) ++ [digitChar (n % 10)]
termination_by n
decreasing_by
  simp_wf
  omega

/-- The canonical base-10 string of an integer, as an HTML form would carry
an id: a `-` sign for negatives followed by the digit run. -/
def intToDecimal (v : Int) : String :=
  if v < 0 then String.mk ('-' :: natToDigits v.natAbs)
  else String.mk (natToDigits v.toNat)

/-- The mathematical value of a numeric (signed base-10) string, with no
range restriction: `some w` exactly when the string is an optional single
`+`/`-` sign followed by at least one decimal digit — the strings C10 calls
numeric.  `parseInt64` accepts exactly these strings when `w` is in the
int64 range (`parseInt64_eq_of_stringDigitsVal`). -/
def stringDigitsVal (s : String) : Option Int :=
  match s.data with
  | [] => none
  | c :: cs =>
    if c = '-' then
      (if cs.isEmpty then none
       else match parseDigitsAux 0 cs with
            | none => none
            | some n => some (-(n : Int)))
    else if c = '+' then
      (if cs.isEmpty then none
       else match parseDigitsAux 0 cs with
            | none => none
            | some n => some ((n : Int)))
    else
      match parseDigitsAux 0 (c :: cs) with
      | none => none
      | some n => some ((n : Int))

end PglikeTodo

namespace PglikeTodo

/-- The store invariant maintained by `SERIAL PRIMARY KEY`: row ids strictly
increase in insertion order and stay below the next serial value. -/
def WF (s : StoreState) : Prop :=
  s.rows.Pairwise (fun a b => a.id < b.id) ∧ ∀ t ∈ s.rows, t.id < s.nextId

lemma wf_initState : WF initState := by
  constructor <;> simp [initState]

lemma wf_createTodo {s : StoreState} (h : WF s) (T : String) :
    WF (createTodo T s) := by
  obtain ⟨hpw, hbd⟩ := h
  constructor
  · simp only [createTodo, List.pairwise_append]
    refine ⟨hpw, List.pairwise_singleton _ _, ?_⟩
    intro a ha b hb
    simp only [List.mem_singleton] at hb
    subst hb
    exact hbd a ha
  · intro t ht
    simp only [createTodo, List.mem_append, List.mem_singleton] at ht
    rcases ht with ht | ht
    · have := hbd t ht
      simp only [createTodo]
      omega
    · subst ht
      simp only [createTodo]
      omega

lemma wf_toggleTodo {s : StoreState} (h : WF s) (i : Int) :
    WF (toggleTodo i s) := by
  obtain ⟨hpw, hbd⟩ := h
  have hid : ∀ t : Todo,
      ((fun t => if t.id = i then { t with completed := !t.completed } else t) t).id = t.id := by
    intro t
    by_cases ht : t.id = i <;> simp [ht]
  constructor
  · simp only [toggleTodo]
    rw [List.pairwise_map]
    refine hpw.imp ?_
    intro a b hab
    rw [hid, hid]
    exact hab
  · intro t ht
    simp only [toggleTodo, List.mem_map] at ht
    obtain ⟨u, hu, hut⟩ := ht
    have := hbd u hu
    have : t.id = u.id := by rw [← hut, hid]
    simp only [toggleTodo]
    have := hbd u hu
    omega

lemma wf_deleteTodo {s : StoreState} (h : WF s) (i : Int) :
    WF (deleteTodo i s) := by
  obtain ⟨hpw, hbd⟩ := h
  constructor
  · exact List.Pairwise.sublist (List.filter_sublist _) hpw
  · intro t ht
    exact hbd t (List.mem_of_mem_filter ht)

end PglikeTodo

namespace PglikeTodo

/-- C1: for every store state and non-empty title `T`, running `createTodo T`
and then the list query yields a row whose title is `T` and whose completed
flag is `false`. -/
theorem create_then_list_has_row (s : StoreState) (T : String) (hT : T ≠ "") :
    ∃ t ∈ listQuery (createTodo T s), t.title = T ∧ t.completed = false := by
  refine ⟨⟨s.nextId, T, false⟩, ?_, rfl, rfl⟩
  unfold listQuery
  rw [List.mem_insertionSort]
  simp [createTodo]

/-- Witness for C1 at the concrete title `Buy groceries` on the fresh store. -/
theorem create_then_list_has_row_witness :
    ("Buy groceries" : String) ≠ "" ∧
    ∃ t ∈ listQuery (createTodo "Buy groceries" initState),
      t.title = "Buy groceries" ∧ t.completed = false :=
  ⟨by decide, create_then_list_has_row initState "Buy groceries" (by decide)⟩

/-- C2: for every id with a matching row, applying `toggleTodo` twice restores
the store — in particular every row's completed flag — to its original value. -/
theorem toggle_twice_restores (s : StoreState) (i : Int)
    (h : ∃ t ∈ s.rows, t.id = i) :
    toggleTodo i (toggleTodo i s) = s := by
  have key : ∀ l : List Todo,
      ((l.map fun t => if t.id = i then { t with completed := !t.completed } else t).map
        fun t => if t.id = i then { t with completed := !t.completed } else t) = l := by
    intro l
    induction l with
    | nil => rfl
    | cons t ts ih =>
      cases t with
      | mk a b c => by_cases ht : a = i <;> simp_all
  cases s with
  | mk rows nextId => simpa [toggleTodo] using key rows

/-- Witness for C2 on a one-row store at id 1. -/
theorem toggle_twice_restores_witness :
    (∃ t ∈ (StoreState.mk [⟨1, "a", false⟩] 2).rows, t.id = 1) ∧
    toggleTodo 1 (toggleTodo 1 ⟨[⟨1, "a", false⟩], 2⟩) = ⟨[⟨1, "a", false⟩], 2⟩ :=
  ⟨by decide, toggle_twice_restores ⟨[⟨1, "a", false⟩], 2⟩ 1 (by decide)⟩

/-- C4: for every store state the list query returns exactly the rows of the
table (a permutation of them) ordered ascending by id; the empty table gives
the empty result, and the index page renders it as a 200 page, not an error. -/
theorem list_all_rows_sorted (s : StoreState) :
    List.Perm (listQuery s) s.rows ∧
    List.Sorted todoLE (listQuery s) ∧
    listQuery initState = [] ∧
    handleIndex "/" (Except.ok []) =
      IndexResponse.page 200
        [Fragment.markdown "*No todos yet. Add one below!*", Fragment.html createFormHTML] := by
  refine ⟨List.perm_insertionSort _ _, List.sorted_insertionSort _ _, rfl,
    by simp [handleIndex, listTodos]⟩

/-- C6: for every id with no matching row, `toggleTodo` and `deleteTodo`
leave the store completely unchanged (and the model returns no error). -/
theorem toggle_delete_missing_id_noop (s : StoreState) (i : Int)
    (h : ∀ t ∈ s.rows, t.id ≠ i) :
    toggleTodo i s = s ∧ deleteTodo i s = s := by
  cases s with
  | mk rows nextId =>
    have h' : ∀ t ∈ rows, t.id ≠ i := h
    have hmap : (rows.map fun t =>
        if t.id = i then { t with completed := !t.completed } else t) = rows := by
      have := List.map_congr_left (l := rows)
        (f := fun t => if t.id = i then { t with completed := !t.completed } else t)
        (g := id) (fun t ht => by simp [h' t ht])
      simpa using this
    have hfil : (rows.filter fun t => decide (t.id ≠ i)) = rows := by
      rw [List.filter_eq_self]
      intro a ha
      simpa using h' a ha
    refine ⟨?_, ?_⟩
    · show StoreState.mk (rows.map fun t =>
        if t.id = i then { t with completed := !t.completed } else t) nextId = ⟨rows, nextId⟩
      rw [hmap]
    · show StoreState.mk (rows.filter fun t => decide (t.id ≠ i)) nextId = ⟨rows, nextId⟩
      rw [hfil]

/-- Witness for C6 on a one-row store at the absent id 5. -/
theorem toggle_delete_missing_id_noop_witness :
    (∀ t ∈ (StoreState.mk [⟨1, "a", false⟩] 2).rows, t.id ≠ 5) ∧
    toggleTodo 5 ⟨[⟨1, "a", false⟩], 2⟩ = ⟨[⟨1, "a", false⟩], 2⟩ ∧
    deleteTodo 5 ⟨[⟨1, "a", false⟩], 2⟩ = ⟨[⟨1, "a", false⟩], 2⟩ :=
  ⟨by decide,
   (toggle_delete_missing_id_noop ⟨[⟨1, "a", false⟩], 2⟩ 5 (by decide)).1,
   (toggle_delete_missing_id_noop ⟨[⟨1, "a", false⟩], 2⟩ 5 (by decide)).2⟩

/-- C8: for every non-POST request, the create, toggle and delete handlers
respond 303 See Other to `/` and leave the store unchanged. -/
theorem non_post_redirects_no_mutation (r : Request) (s : StoreState)
    (h : r.method ≠ "POST") :
    handleCreate r s = (Response.redirect 303 "/", s) ∧
    handleToggle r s = (Response.redirect 303 "/", s) ∧
    handleDelete r s = (Response.redirect 303 "/", s) := by
  refine ⟨?_, ?_, ?_⟩ <;> simp [handleCreate, handleToggle, handleDelete, h]

/-- Witness for C8 with a GET request on the fresh store. -/
theorem non_post_redirects_no_mutation_witness :
    (Request.mk "GET" "" "").method ≠ "POST" ∧
    handleCreate ⟨"GET", "", ""⟩ initState = (Response.redirect 303 "/", initState) ∧
    handleToggle ⟨"GET", "", ""⟩ initState = (Response.redirect 303 "/", initState) ∧
    handleDelete ⟨"GET", "", ""⟩ initState = (Response.redirect 303 "/", initState) :=
  ⟨by decide, non_post_redirects_no_mutation ⟨"GET", "", ""⟩ initState (by decide)⟩

/-- C9: for every POST to `/create` whose title field is empty (or missing,
which `FormValue` reports as the empty string), no row is inserted and the
handler responds 303 See Other to `/`. -/
theorem create_empty_title_no_insert (r : Request) (s : StoreState)
    (hm : r.method = "POST") (ht : r.title = "") :
    handleCreate r s = (Response.redirect 303 "/", s) := by
  simp [handleCreate, hm, ht]

/-- Witness for C9 with a concrete empty-title POST on the fresh store. -/
theorem create_empty_title_no_insert_witness :
    (Request.mk "POST" "" "").method = "POST" ∧ (Request.mk "POST" "" "").title = "" ∧
    handleCreate ⟨"POST", "", ""⟩ initState = (Response.redirect 303 "/", initState) :=
  ⟨rfl, rfl, create_empty_title_no_insert ⟨"POST", "", ""⟩ initState rfl rfl⟩

end PglikeTodo

namespace PglikeTodo

/-- C7: for every POST to `/toggle` or `/delete` whose id field fails to
parse as a base-10 integer, the handler responds 400 `invalid id` and the
store is untouched. -/
theorem invalid_id_rejected_400 (r : Request) (s : StoreState)
    (hm : r.method = "POST") (hp : parseInt64 r.idField = none) :
    handleToggle r s = (Response.err 400 "invalid id", s) ∧
    handleDelete r s = (Response.err 400 "invalid id", s) := by
  refine ⟨?_, ?_⟩ <;> simp [handleToggle, handleDelete, hm, hp]

/-- Witness for C7 with the id field `notanumber` on the fresh store. -/
theorem invalid_id_rejected_400_witness :
    (Request.mk "POST" "" "notanumber").method = "POST" ∧
    parseInt64 (Request.mk "POST" "" "notanumber").idField = none ∧
    handleToggle ⟨"POST", "", "notanumber"⟩ initState =
      (Response.err 400 "invalid id", initState) ∧
    handleDelete ⟨"POST", "", "notanumber"⟩ initState =
      (Response.err 400 "invalid id", initState) :=
  ⟨rfl, by decide,
   (invalid_id_rejected_400 ⟨"POST", "", "notanumber"⟩ initState rfl (by decide)).1,
   (invalid_id_rejected_400 ⟨"POST", "", "notanumber"⟩ initState rfl (by decide)).2⟩

/-- C5 counterexample: a failing list query does not produce the same page as
an empty table — the error path prints `Error listing todos: ...` where the
empty table renders the `*No todos yet. Add one below!*` note. -/
theorem index_error_ne_empty_rendering :
    handleIndex "/" (Except.error "db closed") ≠ handleIndex "/" (Except.ok []) := by
  simp [handleIndex, listTodos]

/-- C5 amended: when the list query fails, the index page does not fail — it
still renders a 200 page ending in the create form — but with the logged
error message in place of the list, not the empty-table rendering. -/
theorem index_error_still_renders (e : String) :
    handleIndex "/" (Except.error e) =
      IndexResponse.page 200
        [Fragment.printf ("Error listing todos: " ++ e), Fragment.html createFormHTML] := by
  simp [handleIndex, listTodos]

end PglikeTodo

namespace PglikeTodo

lemma filter_ne_length_of_mem (i : Int) :
    ∀ l : List Todo, l.Pairwise (fun a b => a.id < b.id) →
      (∃ t ∈ l, t.id = i) →
      (l.filter fun t => decide (t.id ≠ i)).length + 1 = l.length := by
  intro l
  induction l with
  | nil =>
    intro _ hex
    simp at hex
  | cons t ts ih =>
    intro hpw hex
    obtain ⟨hhead, htail⟩ := List.pairwise_cons.mp hpw
    by_cases ht : t.id = i
    · have hall : ∀ u ∈ ts, u.id ≠ i := by
        intro u hu
        have := hhead u hu
        omega
      have hkeep : (ts.filter fun u => decide (u.id ≠ i)) = ts := by
        rw [List.filter_eq_self]
        intro u hu
        simpa using hall u hu
      have hdrop : (decide (t.id ≠ i)) = false := by simp [ht]
      rw [List.filter_cons, hdrop]
      simp only [Bool.false_eq_true, if_false]
      rw [hkeep, List.length_cons]
    · have hex' : ∃ u ∈ ts, u.id = i := by
        rcases hex with ⟨u, hu, hui⟩
        rcases List.mem_cons.mp hu with h1 | h2
        · subst h1
          exact absurd hui ht
        · exact ⟨u, h2, hui⟩
      have hrec := ih htail hex'
      have hkeepT : (decide (t.id ≠ i)) = true := by simp [ht]
      rw [List.filter_cons, hkeepT]
      simp only [eq_self_iff_true, if_true, List.length_cons]
      omega

/-- C3: on a store whose row ids strictly increase (the `SERIAL PRIMARY KEY`
invariant, see `WF`), deleting an id that has a matching row shortens the
list query's result by exactly one, and the remaining rows appear in the same
relative order (the new listing is a sublist of the old one). -/
theorem delete_removes_exactly_one (s : StoreState) (i : Int)
    (hpw : s.rows.Pairwise fun a b => a.id < b.id)
    (hmem : ∃ t ∈ s.rows, t.id = i) :
    (listQuery (deleteTodo i s)).length + 1 = (listQuery s).length ∧
    (listQuery (deleteTodo i s)).Sublist (listQuery s) := by
  have hsorted : List.Sorted todoLE s.rows := hpw.imp fun h => le_of_lt h
  have hsub : (s.rows.filter fun t => decide (t.id ≠ i)).Sublist s.rows :=
    List.filter_sublist _
  have hsorted' : List.Sorted todoLE (s.rows.filter fun t => decide (t.id ≠ i)) :=
    List.Pairwise.sublist hsub hsorted
  have e1 : listQuery s = s.rows := hsorted.insertionSort_eq
  have e2 : listQuery (deleteTodo i s) = s.rows.filter fun t => decide (t.id ≠ i) :=
    hsorted'.insertionSort_eq
  rw [e1, e2]
  exact ⟨filter_ne_length_of_mem i s.rows hpw hmem, hsub⟩

/-- Witness for C3: create `First`, `Second`, `Third` then delete id 2. -/
theorem delete_removes_exactly_one_witness :
    ((StoreState.mk [⟨1, "First", false⟩, ⟨2, "Second", false⟩, ⟨3, "Third", false⟩] 4).rows.Pairwise
      fun a b => a.id < b.id) ∧
    (∃ t ∈ (StoreState.mk [⟨1, "First", false⟩, ⟨2, "Second", false⟩, ⟨3, "Third", false⟩] 4).rows,
      t.id = 2) ∧
    (listQuery (deleteTodo 2 ⟨[⟨1, "First", false⟩, ⟨2, "Second", false⟩, ⟨3, "Third", false⟩], 4⟩)).length + 1 =
      (listQuery ⟨[⟨1, "First", false⟩, ⟨2, "Second", false⟩, ⟨3, "Third", false⟩], 4⟩).length ∧
    (listQuery (deleteTodo 2 ⟨[⟨1, "First", false⟩, ⟨2, "Second", false⟩, ⟨3, "Third", false⟩], 4⟩)).Sublist
      (listQuery ⟨[⟨1, "First", false⟩, ⟨2, "Second", false⟩, ⟨3, "Third", false⟩], 4⟩) :=
  ⟨by decide, by decide,
   (delete_removes_exactly_one
     ⟨[⟨1, "First", false⟩, ⟨2, "Second", false⟩, ⟨3, "Third", false⟩], 4⟩ 2
     (by decide) (by decide)).1,
   (delete_removes_exactly_one
     ⟨[⟨1, "First", false⟩, ⟨2, "Second", false⟩, ⟨3, "Third", false⟩], 4⟩ 2
     (by decide) (by decide)).2⟩

end PglikeTodo

namespace PglikeTodo

lemma parseInt64Core_some_bounds {neg : Bool} {ds : List Char} {v : Int}
    (h : parseInt64Core neg ds = some v) :
    -(2 ^ 63) ≤ v ∧ v < 2 ^ 63 := by
  unfold parseInt64Core at h
  split at h
  · simp at h
  · dsimp only at h
    rcases Bool.eq_false_or_eq_true neg with hneg | hneg <;>
      rw [hneg] at h <;>
      simp only [Bool.false_eq_true, Bool.true_eq_false, if_true, if_false,
        ite_true, ite_false] at h <;>
      split at h
    case isTrue hrange =>
      injection h with h2
      subst h2
      exact hrange
    case isFalse => simp at h
    case isTrue hrange =>
      injection h with h2
      subst h2
      exact hrange
    case isFalse => simp at h

lemma parseInt64_some_bounds {s : String} {v : Int}
    (h : parseInt64 s = some v) :
    -(2 ^ 63) ≤ v ∧ v < 2 ^ 63 := by
  unfold parseInt64 at h
  split at h
  · simp at h
  · split at h
    · split at h
      · simp at h
      · exact parseInt64Core_some_bounds h
    · split at h
      · split at h
        · simp at h
        · exact parseInt64Core_some_bounds h
      · exact parseInt64Core_some_bounds h

lemma parseDigitsAux_append (acc : Nat) (l₁ l₂ : List Char) :
    parseDigitsAux acc (l₁ ++ l₂) =
      match parseDigitsAux acc l₁ with
      | none => none
      | some m => parseDigitsAux m l₂ := by
  induction l₁ generalizing acc with
  | nil => rfl
  | cons c cs ih =>
    simp only [List.cons_append, parseDigitsAux]
    by_cases hc : c.isDigit
    · simp only [hc, if_true]
      exact ih _
    · simp only [hc, Bool.false_eq_true, if_false]

lemma digitChar_isDigit {d : Nat} (h : d < 10) : (digitChar d).isDigit = true := by
  interval_cases d <;> decide

lemma digitChar_toNat {d : Nat} (h : d < 10) : (digitChar d).toNat = 48 + d := by
  interval_cases d <;> decide

lemma parseDigitsAux_natToDigits (n : Nat) :
    ∀ acc, parseDigitsAux acc (natToDigits n) =
      some (acc * 10 ^ (natToDigits n).length + n) := by
  induction n using Nat.strong_induction_on with
  | _ n ih =>
    intro acc
    unfold natToDigits
    split
    · rename_i h
      simp only [parseDigitsAux, digitChar_isDigit h, if_true, digitChar_toNat h,
        List.length_singleton, pow_one]
      congr 1
      omega
    · rename_i h
      rw [parseDigitsAux_append, ih (n / 10) (by omega) acc]
      have h10 : n % 10 < 10 := Nat.mod_lt _ (by norm_num)
      simp only [parseDigitsAux, digitChar_isDigit h10, if_true, digitChar_toNat h10,
        List.length_append, List.length_singleton]
      congr 1
      have h1 : 48 + n % 10 - 48 = n % 10 := by omega
      have h2 : n / 10 * 10 + n % 10 = n := by omega
      rw [h1, pow_succ]
      calc (acc * 10 ^ (natToDigits (n / 10)).length + n / 10) * 10 + n % 10
          = acc * (10 ^ (natToDigits (n / 10)).length * 10) +
              (n / 10 * 10 + n % 10) := by ring
        _ = acc * (10 ^ (natToDigits (n / 10)).length * 10) + n := by rw [h2]

lemma natToDigits_ne_nil (n : Nat) : natToDigits n ≠ [] := by
  unfold natToDigits
  split
  · simp
  · simp

lemma natToDigits_head_isDigit (n : Nat) :
    ∀ c cs, natToDigits n = c :: cs → c.isDigit = true := by
  induction n using Nat.strong_induction_on with
  | _ n ih =>
    intro c cs hc
    unfold natToDigits at hc
    split at hc
    · rename_i h
      injection hc with h1 _
      subst h1
      exact digitChar_isDigit h
    · rename_i h
      obtain ⟨d, ds, hd⟩ : ∃ d ds, natToDigits (n / 10) = d :: ds := by
        cases hnd : natToDigits (n / 10) with
        | nil => exact absurd hnd (natToDigits_ne_nil _)
        | cons d ds => exact ⟨d, ds, rfl⟩
      rw [hd] at hc
      simp only [List.cons_append] at hc
      injection hc with h1 _
      subst h1
      exact ih (n / 10) (by omega) d ds hd

lemma stringDigitsVal_intToDecimal (v : Int) :
    stringDigitsVal (intToDecimal v) = some v := by
  unfold intToDecimal
  split
  · rename_i hv
    show stringDigitsVal (String.mk ('-' :: natToDigits v.natAbs)) = some v
    have hempty : (natToDigits v.natAbs).isEmpty = false := by
      cases hnd : natToDigits v.natAbs with
      | nil => exact absurd hnd (natToDigits_ne_nil _)
      | cons d ds => rfl
    have hdata : (String.mk ('-' :: natToDigits v.natAbs)).data =
        '-' :: natToDigits v.natAbs := rfl
    unfold stringDigitsVal
    simp only [hdata]
    simp only [if_true]
    rw [if_neg (by simp [hempty])]
    simp only [parseDigitsAux_natToDigits v.natAbs 0, Nat.zero_mul, Nat.zero_add,
      Option.some.injEq]
    rw [Int.ofNat_natAbs_of_nonpos (le_of_lt hv), neg_neg]
  · rename_i hv
    obtain ⟨c, cs, hnd⟩ : ∃ c cs, natToDigits v.toNat = c :: cs := by
      cases hnd : natToDigits v.toNat with
      | nil => exact absurd hnd (natToDigits_ne_nil _)
      | cons c cs => exact ⟨c, cs, rfl⟩
    have hd : c.isDigit = true := natToDigits_head_isDigit _ c cs hnd
    have hc1 : ¬(c = '-') := by
      intro h
      rw [h] at hd
      exact absurd hd (by decide)
    have hc2 : ¬(c = '+') := by
      intro h
      rw [h] at hd
      exact absurd hd (by decide)
    show stringDigitsVal (String.mk (natToDigits v.toNat)) = some v
    unfold stringDigitsVal
    simp only [hnd]
    rw [if_neg hc1, if_neg hc2, ← hnd]
    simp only [parseDigitsAux_natToDigits v.toNat 0, Nat.zero_mul, Nat.zero_add,
      Option.some.injEq]
    exact Int.toNat_of_nonneg (not_lt.mp hv)

lemma parseInt64_eq_of_stringDigitsVal {s : String} {w : Int}
    (h : stringDigitsVal s = some w) :
    parseInt64 s = if -(2 ^ 63) ≤ w ∧ w < 2 ^ 63 then some w else none := by
  unfold stringDigitsVal at h
  unfold parseInt64
  rcases hs : s.data with _ | ⟨c, cs⟩
  · simp [hs] at h
  · simp only [hs] at h ⊢
    by_cases hc1 : c = '-'
    · rw [if_pos hc1] at h ⊢
      by_cases hcs : cs.isEmpty
      · rw [if_pos hcs] at h
        simp at h
      · rw [if_neg hcs] at h ⊢
        unfold parseInt64Core
        cases hp : parseDigitsAux 0 cs with
        | none => simp [hp] at h
        | some n =>
          simp only [hp, Option.some.injEq] at h ⊢
          subst h
          simp only [if_true, ite_true]
    · rw [if_neg hc1] at h ⊢
      by_cases hc2 : c = '+'
      · rw [if_pos hc2] at h ⊢
        by_cases hcs : cs.isEmpty
        · rw [if_pos hcs] at h
          simp at h
        · rw [if_neg hcs] at h ⊢
          unfold parseInt64Core
          cases hp : parseDigitsAux 0 cs with
          | none => simp [hp] at h
          | some n =>
            simp only [hp, Option.some.injEq] at h ⊢
            subst h
            simp only [Bool.false_eq_true, if_false, ite_false]
      · rw [if_neg hc2] at h ⊢
        unfold parseInt64Core
        cases hp : parseDigitsAux 0 (c :: cs) with
        | none => simp [hp] at h
        | some n =>
          simp only [hp, Option.some.injEq] at h ⊢
          subst h
          simp only [Bool.false_eq_true, if_false, ite_false]

/-- C10: the toggle and delete handlers parse the id form field with 64-bit
signed bounds.  Every integer in `[-2^63, 2^63)` — zero and negative values
included — is accepted: its decimal string parses back to it and the handler
passes it to the store and redirects 303; the same holds for every numeric
string whose value is in range.  Every numeric string (optional sign plus
decimal digits, as captured by `stringDigitsVal`) whose value lies outside
the int64 range is rejected with 400 `invalid id` exactly as a non-numeric
one, the store untouched.  Conversely, a successful parse only ever produces
an in-range value. -/
theorem id_parsed_with_int64_bounds (st : StoreState) :
    (∀ v : Int, -(2 ^ 63) ≤ v → v < 2 ^ 63 →
      parseInt64 (intToDecimal v) = some v ∧
      handleToggle ⟨"POST", "", intToDecimal v⟩ st =
        (Response.redirect 303 "/", toggleTodo v st) ∧
      handleDelete ⟨"POST", "", intToDecimal v⟩ st =
        (Response.redirect 303 "/", deleteTodo v st)) ∧
    (∀ (s : String) (w : Int), stringDigitsVal s = some w →
      -(2 ^ 63) ≤ w → w < 2 ^ 63 →
      parseInt64 s = some w ∧
      handleToggle ⟨"POST", "", s⟩ st = (Response.redirect 303 "/", toggleTodo w st) ∧
      handleDelete ⟨"POST", "", s⟩ st = (Response.redirect 303 "/", deleteTodo w st)) ∧
    (∀ (s : String) (w : Int), stringDigitsVal s = some w →
      (w < -(2 ^ 63) ∨ 2 ^ 63 ≤ w) →
      parseInt64 s = none ∧
      handleToggle ⟨"POST", "", s⟩ st = (Response.err 400 "invalid id", st) ∧
      handleDelete ⟨"POST", "", s⟩ st = (Response.err 400 "invalid id", st)) ∧
    (∀ (s : String) (v : Int), parseInt64 s = some v →
      -(2 ^ 63) ≤ v ∧ v < 2 ^ 63) := by
  refine ⟨?_, ?_, ?_, ?_⟩
  · intro v h1 h2
    have hp := parseInt64_eq_of_stringDigitsVal (stringDigitsVal_intToDecimal v)
    rw [if_pos ⟨h1, h2⟩] at hp
    exact ⟨hp, by simp [handleToggle, hp], by simp [handleDelete, hp]⟩
  · intro s w hsv h1 h2
    have hp := parseInt64_eq_of_stringDigitsVal hsv
    rw [if_pos ⟨h1, h2⟩] at hp
    exact ⟨hp, by simp [handleToggle, hp], by simp [handleDelete, hp]⟩
  · intro s w hsv hout
    have hp := parseInt64_eq_of_stringDigitsVal hsv
    have hneg : ¬(-(2 ^ 63) ≤ w ∧ w < 2 ^ 63) := by
      rintro ⟨a, b⟩
      rcases hout with hh | hh <;> omega
    rw [if_neg hneg] at hp
    exact ⟨hp, by simp [handleToggle, hp], by simp [handleDelete, hp]⟩
  · intro s v hv
    exact parseInt64_some_bounds hv

/-- Witness for C10: the in-range id `-42` is accepted and dispatched, the
just-out-of-range numeral `9223372036854775808` is rejected with 400. -/
theorem id_parsed_with_int64_bounds_witness :
    stringDigitsVal "-42" = some (-42) ∧
    handleToggle ⟨"POST", "", "-42"⟩ initState =
      (Response.redirect 303 "/", toggleTodo (-42) initState) ∧
    stringDigitsVal "9223372036854775808" = some (2 ^ 63) ∧
    handleToggle ⟨"POST", "", "9223372036854775808"⟩ initState =
      (Response.err 400 "invalid id", initState) := by
  have h := id_parsed_with_int64_bounds initState
  exact ⟨by decide,
    (h.2.1 "-42" (-42) (by decide) (by decide) (by decide)).2.1,
    by decide,
    (h.2.2.1 "9223372036854775808" (2 ^ 63) (by decide) (Or.inr (by decide))).2.1⟩

end PglikeTodo
